import Mathlib

/-!
Verification development for `transcribe.py`: an offline audio-transcription
pipeline that opens a WAV file, validates its format (mono, 16-bit,
8000/16000 Hz), feeds the PCM payload to a speech recognizer in chunks of
4000 frames, accumulates the recognizer's hypothesis records, and writes
them out as a JSON array and as a plain-text file of `text` lines.

The embedding below models the script's control flow explicitly: every
`exit(1)` path, the read loop with its frame counter and progress updates,
the single `try` block around both output writes, and the interactive
prompt loop of the `__main__` section.
-/

/-- A hypothesis record: the dictionary obtained by `json.loads` from the
recognizer's output, modelled as an association list from field names to
string values. -/
structure Record where
  fields : List (String × String)
deriving DecidableEq

/-- Lookup of the `text` field of a record, modelling the Python tests
`"text" in result` (presence) and `result["text"]` (value). -/
def Record.textField (r : Record) : Option String :=
  r.fields.lookup ("text")

/-- Parameters of an opened wave file, as exposed by the `wave` module:
header fields (`getnchannels`, `getsampwidth`, `getframerate`,
`getnframes`) plus the raw PCM payload bytes that `readframes` consumes
left to right. -/
structure WaveParams where
  nchannels : Nat
  sampwidth : Nat
  framerate : Nat
  nframes : Nat
  audioBytes : List Nat
deriving DecidableEq

/-- The validation test of line 53 of `transcribe.py`:
`wf.getnchannels() != 1 or wf.getsampwidth() != 2 or
wf.getframerate() not in [8000, 16000]`. -/
def formatInvalid (wf : WaveParams) : Bool :=
  wf.nchannels != 1 || wf.sampwidth != 2 ||
    (wf.framerate != 8000 && wf.framerate != 16000)

/-- The recognizer (`KaldiRecognizer`) as a black-box deterministic machine
over an abstract state type `σ`.  `accept` models `AcceptWaveform` on a
byte chunk, returning the successor state and the boundary flag; a `none`
return models the call raising an exception.  `result` models `Result` and
`finalResult` models `FinalResult`, each returning the successor state and
the parsed record. -/
structure RecEngine (σ : Type) where
  accept : σ → List Nat → Option (σ × Bool)
  result : σ → σ × Record
  finalResult : σ → σ × Record

/-- The read loop of lines 87-111 of `transcribe.py`.  Arguments: engine,
bytes read per `readframes(4000)` call (`k = 4000 * framesize`), current
recognizer state, remaining payload bytes, current `frames_processed`
counter.  Each iteration reads `data = rest.take k`, adds `len(data)` to
the counter, breaks when the read is empty, otherwise feeds the chunk to
the recognizer and appends `Result` when a boundary is signalled.  Returns
`none` when `AcceptWaveform` raises (the exception propagates out of the
loop); otherwise the final recognizer state, the final counter, the list
of chunks read, and the accumulated records. -/
def feedLoop {σ : Type} (eng : RecEngine σ) (k : Nat) (s : σ) (rest : List Nat)
    (fp : Nat) : Option (σ × Nat × List (List Nat) × List Record) :=
  if _hd : (rest.take k).length = 0 then some (s, fp + (rest.take k).length, [], [])
  else
    match eng.accept s (rest.take k) with
    | none => none
    | some (s1, true) =>
      match feedLoop eng k (eng.result s1).1 (rest.drop k) (fp + (rest.take k).length) with
      | none => none
      | some (sf, fpf, chks, more) =>
        some (sf, fpf, rest.take k :: chks, (eng.result s1).2 :: more)
    | some (s1, false) =>
      match feedLoop eng k s1 (rest.drop k) (fp + (rest.take k).length) with
      | none => none
      | some (sf, fpf, chks, more) =>
        some (sf, fpf, rest.take k :: chks, more)
termination_by rest.length
decreasing_by
  all_goals simp only [List.length_take, List.length_drop] at *
  all_goals omega

/-- The plain-text writer of lines 132-134: one line per record whose
`text` field is present, in sequence order, holding that record's `text`
value. -/
def writeTxt : List Record → List String
  | [] => []
  | r :: rs =>
    match r.textField with
    | some t => t :: writeTxt rs
    | none => writeTxt rs

/-- Observable outcome of one run of `transcribe_audio`, recording the
exit status, whether `wave.open` succeeded, how many times `wf.close()`
was executed, the chunks read from the stream, the final
`frames_processed` counter, the `total` passed to the progress task, the
accumulated result records, which output writes were attempted, the
contents of the files actually written (`none` when not created), and
whether a write error was caught and reported. -/
structure RunResult where
  exitCode : Nat
  opened : Bool
  closeCalls : Nat
  chunksRead : List (List Nat)
  framesProcessed : Nat
  progressTotal : Nat
  records : List Record
  jsonAttempted : Bool
  txtAttempted : Bool
  jsonOut : Option (List Record)
  txtOut : Option (List String)
  writeErrorReported : Bool
deriving DecidableEq

/-- Outcome of a run that terminates with `exit(1)` (or an uncaught
exception): exit status 1, nothing read, no output file touched.
`opened` records whether `wave.open` had already succeeded; on none of
these paths is `wf.close()` executed. -/
def exitRun (opened : Bool) : RunResult :=
  ⟨1, opened, 0, [], 0, 0, [], false, false, none, none, false⟩

/-- Shallow embedding of `transcribe_audio` (lines 22-143 of
`transcribe.py`).  Inputs: the recognizer machine and its initial state,
whether the model path and the audio path exist, the result of
`wave.open` (`none` models the call raising), and fault-injection flags
telling whether the JSON write and the text write raise `IOError`.
The control flow mirrors the source: existence checks, open, format
validation (each failure is `exit(1)`), the read loop (an exception
propagates uncaught, skipping `wf.close()`), `FinalResult` appended once,
`wf.close()` on line 119, then one `try` block performing the JSON write
followed by the text write, whose `except` reports the error without
re-raising. -/
def transcribe_audio {σ : Type} (eng : RecEngine σ) (s0 : σ)
    (modelExists audioExists : Bool) (openResult : Option WaveParams)
    (jsonWriteFails txtWriteFails : Bool) : RunResult :=
  if modelExists = false then exitRun false
  else if audioExists = false then exitRun false
  else
    match openResult with
    | none => exitRun false
    | some wf =>
      if formatInvalid wf then exitRun true
      else
        match feedLoop eng (4000 * (wf.nchannels * wf.sampwidth)) s0 wf.audioBytes 0 with
        | none => exitRun true
        | some (sf, fp, chks, recs) =>
          let results := recs ++ [(eng.finalResult sf).2]
          if jsonWriteFails then
            ⟨0, true, 1, chks, fp, wf.nframes, results, true, false, none, none, true⟩
          else if txtWriteFails then
            ⟨0, true, 1, chks, fp, wf.nframes, results, true, true, some results, none, true⟩
          else
            ⟨0, true, 1, chks, fp, wf.nframes, results, true, true, some results,
              some (writeTxt results), false⟩

/-- The interactive prompt loop of lines 149-154: read a path, strip it,
accept it as soon as it exists on disk, otherwise print an error and
re-prompt.  `inputs` is the sequence of strings the user types; `none`
means the user's supply of answers ran out with the loop still
prompting. -/
def promptLoop (existsOn : String → Bool) : List String → Option String
  | [] => none
  | p :: ps =>
    let audio_file := p.trim
    if existsOn audio_file then some audio_file else promptLoop existsOn ps

/-- The `__main__` flow: run the prompt loop, then call `transcribe_audio`
on the accepted path.  `openW` gives the outcome of `wave.open` for each
path (`none` models the open raising, e.g. a directory or a non-WAV
file). -/
def mainRun {σ : Type} (existsOn : String → Bool) (inputs : List String)
    (eng : RecEngine σ) (s0 : σ) (modelExists : Bool)
    (openW : String → Option WaveParams) (jsonWriteFails txtWriteFails : Bool) :
    Option RunResult :=
  (promptLoop existsOn inputs).map fun p =>
    transcribe_audio eng s0 modelExists (existsOn p) (openW p) jsonWriteFails txtWriteFails

/-- Line 100 of `transcribe.py`: `speed = progress.tasks[task].speed or 0`.
The tracked speed is `None` until measurable; Python's `or` replaces a
falsy value (`None` or `0.0`) by the sentinel `0`. -/
def speedCell (speed : Option ℚ) : ℚ :=
  match speed with
  | none => 0
  | some v => if v = 0 then 0 else v

/-- Line 101 of `transcribe.py`:
`time_remaining = progress.tasks[task].time_remaining or 0`. -/
def timeRemainingCell (timeRemaining : Option ℚ) : ℚ :=
  match timeRemaining with
  | none => 0
  | some v => if v = 0 then 0 else v

/-- On an exhausted stream the read loop returns at once: the empty read
breaks the loop, leaving counter, chunk list and record list untouched. -/
lemma feedLoop_nil {σ : Type} (eng : RecEngine σ) (k : Nat) (s : σ) (fp : Nat) :
    feedLoop eng k s [] fp = some (s, fp, [], []) := by
  unfold feedLoop
  simp

/-- When the whole remaining payload fits in one read (`rest.length ≤ k`),
the loop performs exactly one recognizer call on `rest` and stops. -/
lemma feedLoop_single {σ : Type} (eng : RecEngine σ) (k : Nat) (s : σ)
    (rest : List Nat) (fp : Nat) (hne : rest ≠ []) (hle : rest.length ≤ k) :
    feedLoop eng k s rest fp =
      match eng.accept s rest with
      | none => none
      | some (s1, true) => some ((eng.result s1).1, fp + rest.length, [rest],
          [(eng.result s1).2])
      | some (s1, false) => some (s1, fp + rest.length, [rest], []) := by
  have htake : rest.take k = rest := List.take_of_length_le hle
  have hdrop : rest.drop k = [] := List.drop_eq_nil_of_le hle
  have hlen : rest.length ≠ 0 := by
    intro h
    exact hne (List.eq_nil_of_length_eq_zero h)
  unfold feedLoop
  rw [htake, hdrop]
  rw [dif_neg hlen]
  cases ha : eng.accept s rest with
  | none => rfl
  | some sb =>
    obtain ⟨s1, b⟩ := sb
    cases b <;> simp [feedLoop_nil]

/-- Inversion of a non-empty read: a successful loop run on a stream whose
first read is non-empty starts with the chunk `rest.take k` and continues
as a successful run on `rest.drop k` with the counter advanced by the
chunk's byte length. -/
lemma feedLoop_inv {σ : Type} (eng : RecEngine σ) (k : Nat) (s : σ)
    (rest : List Nat) (fp : Nat) (hne : (rest.take k).length ≠ 0)
    (sf : σ) (fpf : Nat) (chks : List (List Nat)) (recs : List Record)
    (h : feedLoop eng k s rest fp = some (sf, fpf, chks, recs)) :
    ∃ s' chks' recs', chks = rest.take k :: chks' ∧
      feedLoop eng k s' (rest.drop k) (fp + (rest.take k).length) =
        some (sf, fpf, chks', recs') := by
  unfold feedLoop at h
  rw [dif_neg hne] at h
  split at h
  · exact absurd h (by simp)
  · split at h
    · exact absurd h (by simp)
    · simp only [Option.some.injEq, Prod.mk.injEq] at h
      obtain ⟨rfl, rfl, rfl, rfl⟩ := h
      exact ⟨_, _, _, rfl, by assumption⟩
  · split at h
    · exact absurd h (by simp)
    · simp only [Option.some.injEq, Prod.mk.injEq] at h
      obtain ⟨rfl, rfl, rfl, rfl⟩ := h
      exact ⟨_, _, _, rfl, by assumption⟩

/-- Invariant of the read loop, by induction on a bound of the stream
length: on a successful run the counter advances by exactly the byte
length of the stream, the chunks concatenate back to the stream (no byte
skipped or duplicated), every chunk but the last holds exactly `k` bytes,
and every chunk is nonempty with at most `k` bytes. -/
lemma feedLoop_spec_aux {σ : Type} (eng : RecEngine σ) (k : Nat) (hk : k ≠ 0) :
    ∀ (n : Nat) (rest : List Nat), rest.length ≤ n →
      ∀ (s : σ) (fp : Nat) (sf : σ) (fpf : Nat) (chks : List (List Nat))
        (recs : List Record),
        feedLoop eng k s rest fp = some (sf, fpf, chks, recs) →
        fpf = fp + rest.length ∧ chks.flatten = rest ∧
          (∀ c ∈ chks.dropLast, c.length = k) ∧
          (∀ c ∈ chks, c.length ≤ k ∧ c ≠ []) := by
  intro n
  induction n with
  | zero =>
    intro rest hle s fp sf fpf chks recs h
    have hrest : rest = [] := List.eq_nil_of_length_eq_zero (Nat.le_zero.mp hle)
    subst hrest
    rw [feedLoop_nil] at h
    simp only [Option.some.injEq, Prod.mk.injEq] at h
    obtain ⟨rfl, rfl, rfl, rfl⟩ := h
    simp
  | succ n ih =>
    intro rest hle s fp sf fpf chks recs h
    by_cases hr : rest = []
    · subst hr
      rw [feedLoop_nil] at h
      simp only [Option.some.injEq, Prod.mk.injEq] at h
      obtain ⟨rfl, rfl, rfl, rfl⟩ := h
      simp
    · have hlen0 : rest.length ≠ 0 := fun hh => hr (List.eq_nil_of_length_eq_zero hh)
      have htake : (rest.take k).length ≠ 0 := by
        simp only [List.length_take]
        omega
      have hdlen : (rest.drop k).length ≤ n := by
        simp only [List.length_drop]
        omega
      obtain ⟨s', chks', recs', rfl, hrec⟩ :=
        feedLoop_inv eng k s rest fp htake sf fpf chks recs h
      obtain ⟨h1, h2, h3, h4⟩ := ih (rest.drop k) hdlen _ _ _ _ _ _ hrec
      refine ⟨?_, ?_, ?_, ?_⟩
      · rw [h1]
        simp only [List.length_take, List.length_drop]
        omega
      · simp only [List.flatten_cons, h2, List.take_append_drop]
      · intro c hc
        cases hch : chks' with
        | nil =>
          subst hch
          simp at hc
        | cons c2 cs =>
          subst hch
          have hdropne : rest.drop k ≠ [] := by
            intro hdn
            rw [hdn, feedLoop_nil] at hrec
            simp only [Option.some.injEq, Prod.mk.injEq] at hrec
            exact absurd hrec.2.2.1.symm (by simp)
          have hklt : k < rest.length := by
            have := List.length_pos.mpr hdropne
            simp only [List.length_drop] at this
            omega
          simp only [List.dropLast_cons₂] at hc
          rcases List.mem_cons.mp hc with hc1 | hc2
          · subst hc1
            simp only [List.length_take]
            omega
          · exact h3 c hc2
      · intro c hc
        rcases List.mem_cons.mp hc with hc1 | hc2
        · subst hc1
          constructor
          · simp only [List.length_take]
            omega
          · intro hcn
            rw [hcn] at htake
            simp at htake
        · exact h4 c hc2

/-- Loop invariant at the stream's own length bound. -/
lemma feedLoop_spec {σ : Type} (eng : RecEngine σ) (k : Nat) (hk : k ≠ 0)
    (rest : List Nat) (s : σ) (fp : Nat) (sf : σ) (fpf : Nat)
    (chks : List (List Nat)) (recs : List Record)
    (h : feedLoop eng k s rest fp = some (sf, fpf, chks, recs)) :
    fpf = fp + rest.length ∧ chks.flatten = rest ∧
      (∀ c ∈ chks.dropLast, c.length = k) ∧
      (∀ c ∈ chks, c.length ≤ k ∧ c ≠ []) :=
  feedLoop_spec_aux eng k hk rest.length rest le_rfl s fp sf fpf chks recs h

/-- Characterization of the validation test: it passes exactly on mono,
16-bit, 8000-or-16000 Hz inputs. -/
lemma formatInvalid_eq_false_iff (wf : WaveParams) :
    formatInvalid wf = false ↔
      wf.nchannels = 1 ∧ wf.sampwidth = 2 ∧
        (wf.framerate = 8000 ∨ wf.framerate = 16000) := by
  simp only [formatInvalid, Bool.or_eq_false_iff, Bool.and_eq_false_iff,
    bne_eq_false_iff_eq, bne, Bool.not_eq_false', beq_iff_eq, Bool.not_eq_true',
    beq_eq_false_iff_ne, ne_eq]
  tauto

/-- Characterization of the validation test, failing side. -/
lemma formatInvalid_eq_true_iff (wf : WaveParams) :
    formatInvalid wf = true ↔
      (wf.nchannels ≠ 1 ∨ wf.sampwidth ≠ 2 ∨
        (wf.framerate ≠ 8000 ∧ wf.framerate ≠ 16000)) := by
  rw [← Bool.not_eq_false, Ne.eq_def]
  rw [formatInvalid_eq_false_iff]
  tauto

/-- The text writer keeps, in order, exactly the `text` values of the
records that carry the field: a present empty string becomes a (blank)
line, an absent field is skipped. -/
lemma writeTxt_eq_filter_map (rs : List Record) :
    writeTxt rs = (rs.filter (fun r => r.textField.isSome)).map
      (fun r => r.textField.getD ("")) := by
  induction rs with
  | nil => rfl
  | cons r rs ih =>
    cases hr : r.textField with
    | none => simp [writeTxt, hr, List.filter_cons, ih]
    | some t => simp [writeTxt, hr, List.filter_cons, ih]

/-- A concrete recognizer that never signals a boundary and whose final
flush is the typical silence record with an empty `text` field. -/
def trivEngine : RecEngine Unit :=
  ⟨fun s _ => some (s, false), fun s => (s, ⟨[]⟩), fun s => (s, ⟨[("text", "")]⟩)⟩

/-- A valid mono 16-bit 16 kHz input with 8 frames (16 payload bytes). -/
def wfMono16 : WaveParams := ⟨1, 2, 16000, 8, List.replicate 16 0⟩

/-- A valid zero-length (0 frames) input. -/
def wfEmpty : WaveParams := ⟨1, 2, 16000, 0, []⟩

/-- A stereo 44100 Hz input, which the pipeline must reject. -/
def wfStereo : WaveParams := ⟨2, 2, 44100, 4, List.replicate 16 0⟩

/-- A valid mono 16-bit input with 2001 frames (4002 payload bytes). -/
def wfOdd : WaveParams := ⟨1, 2, 16000, 2001, List.replicate 4002 0⟩

/-- Evaluation of the read loop for the boundary-free engine on a stream
that fits in a single `readframes(4000)` call (at most 8000 bytes). -/
lemma feedLoop_triv (rest : List Nat) (hne : rest ≠ []) (hle : rest.length ≤ 8000) :
    feedLoop trivEngine 8000 () rest 0 = some ((), rest.length, [rest], []) := by
  rw [feedLoop_single trivEngine 8000 () rest 0 hne hle]
  simp [trivEngine]

/-- C5: an input whose channel count is not 1, or whose sample width is
not 2 bytes, or whose sample rate is not 8000 or 16000 Hz is rejected
before any chunk is read: the run exits with status 1, reads no chunk,
advances the frame counter not at all, attempts neither output write, and
creates no output file. -/
theorem invalid_format_rejected_before_read {σ : Type} (eng : RecEngine σ)
    (s0 : σ) (modelExists audioExists : Bool) (wf : WaveParams)
    (jF tF : Bool)
    (hbad : wf.nchannels ≠ 1 ∨ wf.sampwidth ≠ 2 ∨
      (wf.framerate ≠ 8000 ∧ wf.framerate ≠ 16000))
    (run : RunResult)
    (hrun : run = transcribe_audio eng s0 modelExists audioExists (some wf) jF tF) :
    run.exitCode = 1 ∧ run.chunksRead = [] ∧ run.framesProcessed = 0 ∧
      run.jsonAttempted = false ∧ run.txtAttempted = false ∧
      run.jsonOut = none ∧ run.txtOut = none := by
  subst hrun
  have hv : formatInvalid wf = true := (formatInvalid_eq_true_iff wf).mpr hbad
  unfold transcribe_audio
  cases modelExists
  · simp [exitRun]
  · cases audioExists
    · simp [exitRun]
    · simp [hv, exitRun]

/-- Witness for C5 at the concrete stereo 44100 Hz input. -/
theorem invalid_format_rejected_before_read_witness :
    (transcribe_audio trivEngine () true true (some wfStereo) false false).exitCode = 1 ∧
    (transcribe_audio trivEngine () true true (some wfStereo) false false).chunksRead = [] ∧
    (transcribe_audio trivEngine () true true (some wfStereo) false false).framesProcessed = 0 ∧
    (transcribe_audio trivEngine () true true (some wfStereo) false false).jsonAttempted = false ∧
    (transcribe_audio trivEngine () true true (some wfStereo) false false).txtAttempted = false ∧
    (transcribe_audio trivEngine () true true (some wfStereo) false false).jsonOut = none ∧
    (transcribe_audio trivEngine () true true (some wfStereo) false false).txtOut = none :=
  invalid_format_rejected_before_read trivEngine () true true wfStereo false false
    (Or.inl (by decide)) _ rfl

/-- C4: on every successful run exactly one final result is appended to
the record sequence after the stream is exhausted (the records are the
loop's records followed by the single `FinalResult` record); a zero-length
stream yields a record sequence holding only that final result, and both
output files are still created. -/
theorem one_final_record_after_exhaustion {σ : Type} (eng : RecEngine σ)
    (s0 : σ) (wf : WaveParams) (sf : σ) (fp : Nat) (chks : List (List Nat))
    (recs : List Record)
    (hv : formatInvalid wf = false)
    (hfeed : feedLoop eng (4000 * (wf.nchannels * wf.sampwidth)) s0 wf.audioBytes 0 =
      some (sf, fp, chks, recs))
    (run : RunResult)
    (hrun : run = transcribe_audio eng s0 true true (some wf) false false) :
    run.records = recs ++ [(eng.finalResult sf).2] ∧
      (wf.audioBytes = [] →
        run.records = [(eng.finalResult s0).2] ∧
        run.jsonOut = some [(eng.finalResult s0).2] ∧
        run.txtOut = some (writeTxt [(eng.finalResult s0).2])) := by
  subst hrun
  refine ⟨?_, ?_⟩
  · simp [transcribe_audio, hv, hfeed]
  · intro hempty
    rw [hempty, feedLoop_nil] at hfeed
    simp only [Option.some.injEq, Prod.mk.injEq] at hfeed
    obtain ⟨rfl, rfl, rfl, rfl⟩ := hfeed
    simp [transcribe_audio, hv, hempty, feedLoop_nil]

/-- Witness for C4 at the concrete zero-length input. -/
theorem one_final_record_after_exhaustion_witness :
    (transcribe_audio trivEngine () true true (some wfEmpty) false false).records =
      [(trivEngine.finalResult ()).2] ∧
    (transcribe_audio trivEngine () true true (some wfEmpty) false false).jsonOut =
      some [(trivEngine.finalResult ()).2] ∧
    (transcribe_audio trivEngine () true true (some wfEmpty) false false).txtOut =
      some (writeTxt [(trivEngine.finalResult ()).2]) :=
  (one_final_record_after_exhaustion trivEngine () wfEmpty () 0 [] [] rfl
    (feedLoop_nil trivEngine (4000 * (wfEmpty.nchannels * wfEmpty.sampwidth)) () 0)
    _ rfl).2 rfl

/-- C8: in the progress table, a speed or remaining-time value that is
still undefined (`None`) is replaced by the sentinel `0` rather than
failing. -/
theorem progress_sentinel_zero_when_undefined (sp tr : Option ℚ)
    (hs : sp = none) (ht : tr = none) :
    speedCell sp = 0 ∧ timeRemainingCell tr = 0 := by
  subst hs
  subst ht
  exact ⟨rfl, rfl⟩

/-- Witness for C8 at the undefined first-iteration values. -/
theorem progress_sentinel_zero_when_undefined_witness :
    speedCell none = 0 ∧ timeRemainingCell none = 0 :=
  progress_sentinel_zero_when_undefined none none rfl rfl

/-- Counterexample to C3 as stated: `chunk_size = 4000` counts frames, not
bytes.  On a valid mono 16-bit stream of 4002 payload bytes the single
read returns one chunk of 4002 bytes, which is neither exactly 4000 bytes
nor a shorter-than-4000-byte last chunk. -/
theorem chunk_of_4000_bytes_refuted :
    ((transcribe_audio trivEngine () true true (some wfOdd) false
        false).chunksRead.map List.length) = [4002] ∧
      ¬(4002 = 4000) ∧ ¬(4002 < 4000) := by
  have hne : List.replicate 4002 (0 : Nat) ≠ [] := by
    intro h
    have hl := congrArg List.length h
    rw [List.length_replicate] at hl
    exact absurd hl (by norm_num)
  have hle : (List.replicate 4002 (0 : Nat)).length ≤ 8000 := by
    rw [List.length_replicate]
    norm_num
  have hfeed : feedLoop trivEngine (4000 * (wfOdd.nchannels * wfOdd.sampwidth)) ()
      wfOdd.audioBytes 0 = some ((), 4002, [List.replicate 4002 0], []) := by
    have h := feedLoop_triv (List.replicate 4002 0) hne hle
    rw [List.length_replicate] at h
    exact h
  have hv : formatInvalid wfOdd = false := by decide
  refine ⟨?_, by norm_num, by norm_num⟩
  simp [transcribe_audio, hv, hfeed, List.length_replicate, -List.reduceReplicate]

/-- C3 (amended): the feeder reads the stream in chunks of 4000 frames,
i.e. exactly 8000 bytes each for a valid mono 16-bit stream, except
possibly a shorter (nonempty) last chunk, and the chunks concatenate back
to the whole stream: no byte is skipped or duplicated. -/
theorem chunks_8000_bytes_stream_preserved {σ : Type} (eng : RecEngine σ)
    (s0 : σ) (wf : WaveParams) (sf : σ) (fp : Nat) (chks : List (List Nat))
    (recs : List Record) (jF tF : Bool)
    (hv : formatInvalid wf = false)
    (hfeed : feedLoop eng (4000 * (wf.nchannels * wf.sampwidth)) s0 wf.audioBytes 0 =
      some (sf, fp, chks, recs))
    (run : RunResult)
    (hrun : run = transcribe_audio eng s0 true true (some wf) jF tF) :
    run.chunksRead = chks ∧ chks.flatten = wf.audioBytes ∧
      (∀ c ∈ chks.dropLast, c.length = 8000) ∧
      (∀ c ∈ chks, c.length ≤ 8000 ∧ c ≠ []) := by
  subst hrun
  obtain ⟨hch, hw, hrate⟩ := (formatInvalid_eq_false_iff wf).mp hv
  have hk : 4000 * (wf.nchannels * wf.sampwidth) = 8000 := by
    rw [hch, hw]
  rw [hk] at hfeed
  obtain ⟨h1, h2, h3, h4⟩ :=
    feedLoop_spec eng 8000 (by norm_num) wf.audioBytes s0 0 sf fp chks recs hfeed
  refine ⟨?_, h2, h3, h4⟩
  rw [← hk] at hfeed
  cases jF <;> cases tF <;> simp [transcribe_audio, hv, hfeed]

/-- Witness for the amended C3 at the concrete 8-frame input. -/
theorem chunks_8000_bytes_stream_preserved_witness :
    (transcribe_audio trivEngine () true true (some wfMono16) false
        false).chunksRead = [List.replicate 16 0] ∧
      [List.replicate 16 0].flatten = wfMono16.audioBytes := by
  have hfeed : feedLoop trivEngine (4000 * (wfMono16.nchannels * wfMono16.sampwidth)) ()
      wfMono16.audioBytes 0 = some ((), 16, [List.replicate 16 0], []) := by
    have h := feedLoop_triv (List.replicate 16 0) (by simp) (by simp)
    simpa using h
  have h := chunks_8000_bytes_stream_preserved trivEngine () wfMono16 () 16
    [List.replicate 16 0] [] false false rfl hfeed _ rfl
  exact ⟨h.1, h.2.1⟩

/-- C9: the counter displayed as `Frames Processed` is advanced by the
byte length of each chunk returned by `readframes`, not by the frame
count: its final value is the stream's byte length, i.e. 2 x the total
frame count of a valid 16-bit mono stream, while the progress task total
is expressed in frames. -/
theorem frames_counter_counts_bytes {σ : Type} (eng : RecEngine σ)
    (s0 : σ) (wf : WaveParams) (sf : σ) (fp : Nat) (chks : List (List Nat))
    (recs : List Record) (jF tF : Bool)
    (hv : formatInvalid wf = false)
    (hlen : wf.audioBytes.length = wf.nframes * (wf.nchannels * wf.sampwidth))
    (hfeed : feedLoop eng (4000 * (wf.nchannels * wf.sampwidth)) s0 wf.audioBytes 0 =
      some (sf, fp, chks, recs))
    (run : RunResult)
    (hrun : run = transcribe_audio eng s0 true true (some wf) jF tF) :
    run.framesProcessed = (run.chunksRead.map List.length).sum ∧
      run.framesProcessed = wf.audioBytes.length ∧
      run.framesProcessed = 2 * wf.nframes ∧
      run.progressTotal = wf.nframes := by
  subst hrun
  obtain ⟨hch, hw, hrate⟩ := (formatInvalid_eq_false_iff wf).mp hv
  have hk : 4000 * (wf.nchannels * wf.sampwidth) = 8000 := by
    rw [hch, hw]
  rw [hk] at hfeed
  obtain ⟨h1, h2, h3, h4⟩ :=
    feedLoop_spec eng 8000 (by norm_num) wf.audioBytes s0 0 sf fp chks recs hfeed
  rw [← hk] at hfeed
  have hfields : (transcribe_audio eng s0 true true (some wf) jF tF).framesProcessed = fp ∧
      (transcribe_audio eng s0 true true (some wf) jF tF).chunksRead = chks ∧
      (transcribe_audio eng s0 true true (some wf) jF tF).progressTotal = wf.nframes := by
    cases jF <;> cases tF <;> simp [transcribe_audio, hv, hfeed]
  obtain ⟨hfp, hcr, hpt⟩ := hfields
  have hsum : (chks.map List.length).sum = wf.audioBytes.length := by
    rw [← h2, ← List.length_flatten]
  refine ⟨?_, ?_, ?_, hpt⟩
  · rw [hfp, hcr, hsum, h1]
    simp
  · rw [hfp, h1]
    simp
  · rw [hfp, h1, hlen, hch, hw]
    ring

/-- Evaluation of the read loop for the boundary-free engine on a
`replicate` stream of at most 8000 bytes. -/
lemma feedLoop_triv_replicate (n : Nat) (hn : n ≠ 0) (hle : n ≤ 8000) :
    feedLoop trivEngine 8000 () (List.replicate n 0) 0 =
      some ((), n, [List.replicate n 0], []) := by
  have hne : List.replicate n (0 : Nat) ≠ [] := by
    intro h
    have hl := congrArg List.length h
    rw [List.length_replicate, List.length_nil] at hl
    exact hn hl
  have hlen : (List.replicate n (0 : Nat)).length ≤ 8000 := by
    rw [List.length_replicate]
    exact hle
  have h := feedLoop_triv (List.replicate n 0) hne hlen
  rw [List.length_replicate] at h
  exact h

/-- Evaluation of the read loop on the 16-byte fixture `wfMono16`. -/
lemma feedLoop_wfMono16 :
    feedLoop trivEngine (4000 * (wfMono16.nchannels * wfMono16.sampwidth)) ()
      wfMono16.audioBytes 0 = some ((), 16, [List.replicate 16 0], []) :=
  feedLoop_triv_replicate 16 (by norm_num) (by norm_num)

/-- Witness for C9 at the concrete 8-frame (16-byte) input. -/
theorem frames_counter_counts_bytes_witness :
    (transcribe_audio trivEngine () true true (some wfMono16) false
        false).framesProcessed = wfMono16.audioBytes.length ∧
    (transcribe_audio trivEngine () true true (some wfMono16) false
        false).framesProcessed = 2 * wfMono16.nframes ∧
    (transcribe_audio trivEngine () true true (some wfMono16) false
        false).progressTotal = wfMono16.nframes := by
  have h := frames_counter_counts_bytes trivEngine () wfMono16 () 16
    [List.replicate 16 0] [] false false rfl (by decide) feedLoop_wfMono16 _ rfl
  exact ⟨h.2.1, h.2.2.1, h.2.2.2⟩

/-- C6: the text output file holds one line per accumulated record whose
`text` field is present, in sequence order, each line being that record's
`text` value; a present empty string still yields a (blank) line and a
record lacking the field is skipped without error. -/
theorem text_lines_one_per_text_record {σ : Type} (eng : RecEngine σ)
    (s0 : σ) (wf : WaveParams) (sf : σ) (fp : Nat) (chks : List (List Nat))
    (recs : List Record)
    (hv : formatInvalid wf = false)
    (hfeed : feedLoop eng (4000 * (wf.nchannels * wf.sampwidth)) s0 wf.audioBytes 0 =
      some (sf, fp, chks, recs))
    (run : RunResult)
    (hrun : run = transcribe_audio eng s0 true true (some wf) false false) :
    run.txtOut = some ((run.records.filter (fun r => r.textField.isSome)).map
      (fun r => r.textField.getD (""))) := by
  subst hrun
  simp [transcribe_audio, hv, hfeed, writeTxt_eq_filter_map]

/-- Witness for C6 at the concrete 8-frame input. -/
theorem text_lines_one_per_text_record_witness :
    (transcribe_audio trivEngine () true true (some wfMono16) false false).txtOut =
      some (((transcribe_audio trivEngine () true true (some wfMono16) false
          false).records.filter (fun r => r.textField.isSome)).map
        (fun r => r.textField.getD (""))) :=
  text_lines_one_per_text_record trivEngine () wfMono16 () 16
    [List.replicate 16 0] [] rfl feedLoop_wfMono16 _ rfl

/-- C7: round-trip between the two output files: the lines of the text
file are, in order, the `text` values of an order-preserving subsequence
of the record array written to the JSON file, each member of which has
the `text` field. -/
theorem text_lines_roundtrip_json {σ : Type} (eng : RecEngine σ)
    (s0 : σ) (wf : WaveParams) (sf : σ) (fp : Nat) (chks : List (List Nat))
    (recs : List Record)
    (hv : formatInvalid wf = false)
    (hfeed : feedLoop eng (4000 * (wf.nchannels * wf.sampwidth)) s0 wf.audioBytes 0 =
      some (sf, fp, chks, recs))
    (run : RunResult)
    (hrun : run = transcribe_audio eng s0 true true (some wf) false false) :
    ∃ sub : List Record, List.Sublist sub run.records ∧
      run.jsonOut = some run.records ∧
      run.txtOut = some (sub.map (fun r => r.textField.getD (""))) ∧
      ∀ r ∈ sub, r.textField.isSome = true := by
  subst hrun
  have hrec : (transcribe_audio eng s0 true true (some wf) false false).records =
      recs ++ [(eng.finalResult sf).2] := by
    simp [transcribe_audio, hv, hfeed]
  have hjson : (transcribe_audio eng s0 true true (some wf) false false).jsonOut =
      some (recs ++ [(eng.finalResult sf).2]) := by
    simp [transcribe_audio, hv, hfeed]
  have htxt : (transcribe_audio eng s0 true true (some wf) false false).txtOut =
      some (writeTxt (recs ++ [(eng.finalResult sf).2])) := by
    simp [transcribe_audio, hv, hfeed]
  refine ⟨(recs ++ [(eng.finalResult sf).2]).filter (fun r => r.textField.isSome),
    ?_, ?_, ?_, ?_⟩
  · rw [hrec]
    exact List.filter_sublist _
  · rw [hjson, hrec]
  · rw [htxt, writeTxt_eq_filter_map]
  · intro r hr
    exact (List.mem_filter.mp hr).2

/-- Witness for C7 at the concrete 8-frame input. -/
theorem text_lines_roundtrip_json_witness :
    ∃ sub : List Record,
      List.Sublist sub (transcribe_audio trivEngine () true true (some wfMono16)
        false false).records ∧
      (transcribe_audio trivEngine () true true (some wfMono16) false
          false).jsonOut =
        some (transcribe_audio trivEngine () true true (some wfMono16) false
          false).records ∧
      (transcribe_audio trivEngine () true true (some wfMono16) false
          false).txtOut =
        some (sub.map (fun r => r.textField.getD (""))) ∧
      ∀ r ∈ sub, r.textField.isSome = true :=
  text_lines_roundtrip_json trivEngine () wfMono16 () 16
    [List.replicate 16 0] [] rfl feedLoop_wfMono16 _ rfl

/-- Counterexample to C1 as stated: both output writes sit in one `try`
block (lines 124-137), so when the JSON write fails the `except` handler
is entered and the plain-text write is never attempted (while the failure
is reported and the run continues). -/
theorem json_write_failure_skips_text_write :
    (transcribe_audio trivEngine () true true (some wfMono16) true
        false).jsonAttempted = true ∧
    (transcribe_audio trivEngine () true true (some wfMono16) true
        false).jsonOut = none ∧
    (transcribe_audio trivEngine () true true (some wfMono16) true
        false).writeErrorReported = true ∧
    (transcribe_audio trivEngine () true true (some wfMono16) true
        false).txtAttempted = false ∧
    (transcribe_audio trivEngine () true true (some wfMono16) true
        false).txtOut = none := by
  have hv : formatInvalid wfMono16 = false := by decide
  simp [transcribe_audio, hv, feedLoop_wfMono16]

/-- C1 (amended): a failure writing either output file is caught and
reported without aborting the run (exit status stays 0), and a failure
writing the text file does not affect the JSON file, which was already
written; however, because both writes share a single exception handler, a
failure writing the JSON file prevents the text write from being
attempted at all. -/
theorem write_failures_caught_nonfatal {σ : Type} (eng : RecEngine σ)
    (s0 : σ) (wf : WaveParams) (sf : σ) (fp : Nat) (chks : List (List Nat))
    (recs : List Record) (jF tF : Bool)
    (hv : formatInvalid wf = false)
    (hfeed : feedLoop eng (4000 * (wf.nchannels * wf.sampwidth)) s0 wf.audioBytes 0 =
      some (sf, fp, chks, recs))
    (run : RunResult)
    (hrun : run = transcribe_audio eng s0 true true (some wf) jF tF) :
    run.exitCode = 0 ∧ run.jsonAttempted = true ∧
      (jF = true → run.writeErrorReported = true ∧ run.txtAttempted = false ∧
        run.jsonOut = none ∧ run.txtOut = none) ∧
      (jF = false → run.jsonOut = some run.records ∧ run.txtAttempted = true) ∧
      (jF = false → tF = true → run.writeErrorReported = true ∧
        run.txtOut = none) := by
  subst hrun
  cases jF <;> cases tF <;> simp [transcribe_audio, hv, hfeed]

/-- Witness for the amended C1 with an injected JSON write failure. -/
theorem write_failures_caught_nonfatal_witness :
    (transcribe_audio trivEngine () true true (some wfMono16) true
        false).exitCode = 0 ∧
    (transcribe_audio trivEngine () true true (some wfMono16) true
        false).writeErrorReported = true := by
  have h := write_failures_caught_nonfatal trivEngine () wfMono16 () 16
    [List.replicate 16 0] [] true false (by decide) feedLoop_wfMono16 _ rfl
  exact ⟨h.1, (h.2.2.1 rfl).1⟩

/-- Counterexample to C2 as stated: on the format-validation failure path
the script calls `exit(1)` at line 55 with the `wave` handle open and
never executes `wf.close()`: the pipeline ends with the opened handle not
closed by the code. -/
theorem format_failure_leaves_handle_open :
    (transcribe_audio trivEngine () true true (some wfStereo) false
        false).opened = true ∧
    (transcribe_audio trivEngine () true true (some wfStereo) false
        false).closeCalls = 0 ∧
    (transcribe_audio trivEngine () true true (some wfStereo) false
        false).exitCode = 1 := by
  have hv : formatInvalid wfStereo = true := by decide
  simp [transcribe_audio, hv, exitRun]

/-- C2 (amended): `wf.close()` runs exactly once on the successful path
(including runs whose output writes fail, since write errors are caught),
and zero times on every `exit(1)` or uncaught-exception path — in
particular on a validation failure after a successful open, and on an
exception raised inside the chunk-feeding loop, the handle is never
closed by the code. -/
theorem handle_closed_once_iff_success {σ : Type} (eng : RecEngine σ)
    (s0 : σ) (modelExists audioExists : Bool) (openResult : Option WaveParams)
    (jF tF : Bool) (run : RunResult)
    (hrun : run = transcribe_audio eng s0 modelExists audioExists openResult jF tF) :
    run.closeCalls = (if run.exitCode = 0 then 1 else 0) := by
  subst hrun
  unfold transcribe_audio
  repeat' split
  all_goals simp_all [exitRun]

/-- Witness for the amended C2 at a concrete rejected input. -/
theorem handle_closed_once_iff_success_witness :
    (transcribe_audio trivEngine () true true (some wfStereo) false
        false).closeCalls =
      (if (transcribe_audio trivEngine () true true (some wfStereo) false
          false).exitCode = 0 then 1 else 0) :=
  handle_closed_once_iff_success trivEngine () true true (some wfStereo)
    false false _ rfl

/-- Any path returned by the prompt loop was accepted solely because it
exists on disk. -/
lemma promptLoop_accepted_exists (existsOn : String → Bool) :
    ∀ (inputs : List String) (p : String),
      promptLoop existsOn inputs = some p → existsOn p = true := by
  intro inputs
  induction inputs with
  | nil =>
    intro p h
    exact absurd h (by simp [promptLoop])
  | cons q qs ih =>
    intro p h
    simp only [promptLoop] at h
    by_cases hq : existsOn q.trim
    · rw [if_pos (by exact hq)] at h
      injection h with h
      rw [← h]
      exact hq
    · rw [if_neg (by simpa using hq)] at h
      exact ih p h

/-- C10: the interactive prompt loop accepts a typed path exactly when it
exists on disk — no other property is checked, so a directory or a
non-waveform file is accepted — and re-prompts only on non-existence;
when the accepted path cannot be parsed as a waveform file (`wave.open`
raises) or fails format validation, the process terminates with exit
status 1 instead of re-prompting. -/
theorem prompt_checks_existence_only_invalid_exits {σ : Type}
    (existsOn : String → Bool) (q : String) (qs : List String)
    (eng : RecEngine σ) (s0 : σ) (openW : String → Option WaveParams)
    (jF tF : Bool) :
    (existsOn q.trim = true → promptLoop existsOn (q :: qs) = some q.trim) ∧
    (existsOn q.trim = false → promptLoop existsOn (q :: qs) = promptLoop existsOn qs) ∧
    (∀ p, promptLoop existsOn (q :: qs) = some p → existsOn p = true) ∧
    (existsOn q.trim = true → openW q.trim = none →
      mainRun existsOn (q :: qs) eng s0 true openW jF tF = some (exitRun false)) ∧
    (∀ wf, existsOn q.trim = true → openW q.trim = some wf →
      formatInvalid wf = true →
      mainRun existsOn (q :: qs) eng s0 true openW jF tF = some (exitRun true)) ∧
    (exitRun false).exitCode = 1 ∧ (exitRun true).exitCode = 1 := by
  refine ⟨?_, ?_, promptLoop_accepted_exists existsOn (q :: qs), ?_, ?_, rfl, rfl⟩
  · intro h
    simp [promptLoop, h]
  · intro h
    simp [promptLoop, h]
  · intro h1 h2
    simp [mainRun, promptLoop, h1, h2, transcribe_audio]
  · intro wf h1 h2 hbad
    simp [mainRun, promptLoop, h1, h2, transcribe_audio, hbad]

/-- A filesystem on which every path exists. -/
def existsAll : String → Bool := fun _ => true

/-- An opener that always raises, e.g. every path is a directory or a
non-WAV file. -/
def openNone : String → Option WaveParams := fun _ => none

/-- Witness for C10: an existing but unparseable path is accepted by the
prompt loop and the run exits with status 1. -/
theorem prompt_checks_existence_only_invalid_exits_witness :
    promptLoop existsAll (["a.wav"]) = some (("a.wav").trim) ∧
    mainRun existsAll (["a.wav"]) trivEngine () true openNone false false =
      some (exitRun false) ∧
    (exitRun false).exitCode = 1 := by
  have h := prompt_checks_existence_only_invalid_exits existsAll ("a.wav") []
    trivEngine () openNone false false
  exact ⟨h.1 rfl, h.2.2.2.1 rfl rfl, h.2.2.2.2.2.1⟩
